import Mathlib

/-
Shallow embedding of the filmlook pixel pipeline (src/src/App.tsx) and of the
spec's re-architected blur primitive, with theorems settling the frozen claims.

Modelling conventions:
* JS numbers are modelled as real numbers (the source math is `Math.exp`,
  `Math.min/max`, field arithmetic on doubles; we verify the ideal-real
  semantics the spec describes).
* `Uint8ClampedArray` buffers are `List ℤ`; storing a float into such an array
  clamps it to [0,255] and rounds to nearest with ties to even, modelled by
  `toU8`.  `Float32Array` buffers of [0,1] channel values are per-index real
  functions (the arrays only memoize the per-pixel formulas).
* Out-of-range array reads (JS `undefined`) are modelled by `List.getD` with
  default 0; no claim settled here depends on the value read out of range,
  only on the fact that the code keeps running and produces a full buffer.
* The canvas blur (`ctx.filter = blur(r)`, used by `blur` / `blurSeparate`)
  is platform code, not part of this repository; the pipeline is therefore
  parametrized by the two blur functions `bF` (glow-mask path) and `sbF`
  (soft-focus path).  The spec's explicit `GaussianBlur` primitive with an
  edge-policy parameter is modelled separately from the spec's words.
* `Math.random()` is modelled by a sample function `rand : ℕ → ℝ` giving the
  value drawn at pixel `i` (the combine loop draws exactly one sample per
  pixel).
-/

namespace FilmLook

noncomputable section

/-- Parameter record of the film-look transform (source: `FilmLookParams`). -/
structure FilmLookParams where
  toneA : ℝ
  glowThreshold : ℝ
  glowStrength : ℝ
  glowBlur : ℝ
  grainStrength : ℝ
  softFocusStrength : ℝ
  softFocusRadius : ℝ

/-- Default slider values (source: `defaultParams`). -/
def defaultParams : FilmLookParams :=
  ⟨5.0, 0.7, 0.4, 40, 0.02, 0.3, 10⟩

/-- Clamp a value to [0,1] (source: `clamp`). -/
def clamp (v : ℝ) : ℝ := min (max v 0) 1

/-- Round to the nearest integer, ties to even — the rounding JS applies when
storing a number into a `Uint8ClampedArray`. -/
def roundTiesEven (x : ℝ) : ℤ :=
  if x - ⌊x⌋ = 1 / 2 then (if Even ⌊x⌋ then ⌊x⌋ else ⌊x⌋ + 1) else round x

/-- Store a float into a `Uint8ClampedArray` cell: clamp to [0,255], then
round to nearest with ties to even. -/
def toU8 (x : ℝ) : ℤ := roundTiesEven (min (max x 0) 255)

/-- Read byte `j` of a buffer and normalize to [0,1] (source: `px[j] / 255`
and the analogous reads of `glow`, `out` and `soft`). -/
def chan (px : List ℤ) (j : ℕ) : ℝ := (px.getD j 0 : ℝ) / 255

/-- Logistic tone curve applied per channel (source: lines 93–95,
`1 / (1 + Math.exp(-params.toneA * (c - 0.5)))`). -/
def toneCurve (a c : ℝ) : ℝ := 1 / (1 + Real.exp (-a * (c - 0.5)))

/-- Tone-curved red channel of pixel `i` (source: `tc_r`). -/
def tcR (a : ℝ) (px : List ℤ) (i : ℕ) : ℝ := toneCurve a (chan px (4 * i))

/-- Tone-curved green channel of pixel `i` (source: `tc_g`). -/
def tcG (a : ℝ) (px : List ℤ) (i : ℕ) : ℝ := toneCurve a (chan px (4 * i + 1))

/-- Tone-curved blue channel of pixel `i` (source: `tc_b`). -/
def tcB (a : ℝ) (px : List ℤ) (i : ℕ) : ℝ := toneCurve a (chan px (4 * i + 2))

/-- BT.709 luminance of the tone-curved channels (source: line 96, stored in
`lum[i]`). -/
def lumAt (a : ℝ) (px : List ℤ) (i : ℕ) : ℝ :=
  0.2126 * tcR a px i + 0.7152 * tcG a px i + 0.0722 * tcB a px i

/-- Shadow grading mask (source: `shadowM = clamp((0.5 - l) * 2)`). -/
def shadowMask (l : ℝ) : ℝ := clamp ((0.5 - l) * 2)

/-- Highlight grading mask (source: `highlightM = clamp((l - 0.5) * 2)`). -/
def highlightMask (l : ℝ) : ℝ := clamp ((l - 0.5) * 2)

/-- Graded red channel `R[i]` (source: line 100). -/
def toneR (a : ℝ) (px : List ℤ) (i : ℕ) : ℝ :=
  clamp (tcR a px i + shadowMask (lumAt a px i) * (-0.05) +
    highlightMask (lumAt a px i) * 0.08)

/-- Graded green channel `G[i]` (source: line 101). -/
def toneG (a : ℝ) (px : List ℤ) (i : ℕ) : ℝ :=
  clamp (tcG a px i + shadowMask (lumAt a px i) * 0.0 +
    highlightMask (lumAt a px i) * 0.04)

/-- Graded blue channel `B[i]` (source: line 102). -/
def toneB (a : ℝ) (px : List ℤ) (i : ℕ) : ℝ :=
  clamp (tcB a px i + shadowMask (lumAt a px i) * 0.05 +
    highlightMask (lumAt a px i) * (-0.02))

/-- Glow mask value of one pixel (source: line 108,
`lum[i] > params.glowThreshold ? 255 : 0`). -/
def maskVal (l t : ℝ) : ℤ := if l > t then 255 else 0

/-- Build a `Uint8ClampedArray` of `n` four-byte pixels starting at pixel
index `i`, from the four per-pixel channel functions.  Models the loops that
fill a fresh `len*4` array with `buf.set([a,b,c,d], i*4)` per pixel. -/
def quads (fa fb fc fd : ℕ → ℤ) : ℕ → ℕ → List ℤ
  | _, 0 => []
  | i, n + 1 => fa i :: fb i :: fc i :: fd i :: quads fa fb fc fd (i + 1) n

/-- Glow mask buffer (source: lines 106–110). -/
def maskList (a t : ℝ) (px : List ℤ) (len : ℕ) : List ℤ :=
  quads (fun i => maskVal (lumAt a px i) t) (fun i => maskVal (lumAt a px i) t)
    (fun i => maskVal (lumAt a px i) t) (fun _ => 255) 0 len

/-- Grain noise sample of pixel `i` (source: line 119,
`(Math.random() * 2 - 1) * params.grainStrength`). -/
def noiseAt (rand : ℕ → ℝ) (s : ℝ) (i : ℕ) : ℝ := (rand i * 2 - 1) * s

/-- Luminance weight of the grain (source: line 120,
`0.7 + 0.3 * lum[i]`). -/
def grainWeight (a : ℝ) (px : List ℤ) (i : ℕ) : ℝ := 0.7 + 0.3 * lumAt a px i

/-- Red channel after the glow add, before grain (source: line 116). -/
def preR (p : FilmLookParams) (glow px : List ℤ) (i : ℕ) : ℝ :=
  toneR p.toneA px i + chan glow (4 * i) * p.glowStrength

/-- Green channel after the glow add, before grain (source: line 117). -/
def preG (p : FilmLookParams) (glow px : List ℤ) (i : ℕ) : ℝ :=
  toneG p.toneA px i + chan glow (4 * i + 1) * p.glowStrength

/-- Blue channel after the glow add, before grain (source: line 118). -/
def preB (p : FilmLookParams) (glow px : List ℤ) (i : ℕ) : ℝ :=
  toneB p.toneA px i + chan glow (4 * i + 2) * p.glowStrength

/-- Red channel of the combine loop after grain and clamp (source: line 121). -/
def outRval (p : FilmLookParams) (glow : List ℤ) (rand : ℕ → ℝ) (px : List ℤ)
    (i : ℕ) : ℝ :=
  clamp (preR p glow px i +
    noiseAt rand p.grainStrength i * grainWeight p.toneA px i)

/-- Green channel of the combine loop after grain and clamp (source: line 122). -/
def outGval (p : FilmLookParams) (glow : List ℤ) (rand : ℕ → ℝ) (px : List ℤ)
    (i : ℕ) : ℝ :=
  clamp (preG p glow px i +
    noiseAt rand p.grainStrength i * grainWeight p.toneA px i)

/-- Blue channel of the combine loop after grain and clamp (source: line 123). -/
def outBval (p : FilmLookParams) (glow : List ℤ) (rand : ℕ → ℝ) (px : List ℤ)
    (i : ℕ) : ℝ :=
  clamp (preB p glow px i +
    noiseAt rand p.grainStrength i * grainWeight p.toneA px i)

/-- The `out` buffer of the combine+grain loop (source: lines 114–125). -/
def outList (p : FilmLookParams) (glow : List ℤ) (rand : ℕ → ℝ) (px : List ℤ)
    (len : ℕ) : List ℤ :=
  quads (fun i => toU8 (outRval p glow rand px i * 255))
    (fun i => toU8 (outGval p glow rand px i * 255))
    (fun i => toU8 (outBval p glow rand px i * 255))
    (fun _ => 255) 0 len

/-- Soft-focus alpha blend of one channel, scaled back to bytes (source:
lines 140–145, `(c0 * (1 - strength) + c1 * strength) * 255`). -/
def blendChan (s x y : ℝ) : ℝ := (x * (1 - s) + y * s) * 255

/-- The `final` buffer of the soft-focus loop (source: lines 129–150). -/
def finalList (s : ℝ) (out soft : List ℤ) (len : ℕ) : List ℤ :=
  quads (fun i => toU8 (blendChan s (chan out (4 * i)) (chan soft (4 * i))))
    (fun i => toU8 (blendChan s (chan out (4 * i + 1)) (chan soft (4 * i + 1))))
    (fun i => toU8 (blendChan s (chan out (4 * i + 2)) (chan soft (4 * i + 2))))
    (fun _ => 255) 0 len

/-- An `ImageData`: byte buffer plus dimensions. -/
structure ImageDataM where
  data : List ℤ
  width : ℕ
  height : ℕ

/-- The whole pipeline `applyFilmLook` (source: lines 75–153).  `bF` models
the platform canvas blur used on the glow mask (source: `blur`), `sbF` the
separate-source canvas blur used for soft focus (source: `blurSeparate`);
both are platform primitives outside this repository, so they are
parameters.  `rand` gives the `Math.random()` sample drawn at pixel `i`. -/
def applyFilmLook (bF sbF : List ℤ → ℕ → ℕ → ℝ → List ℤ) (rand : ℕ → ℝ)
    (img : ImageDataM) (w h : ℕ) (p : FilmLookParams) : ImageDataM :=
  let len := w * h
  let px := img.data
  let mask := maskList p.toneA p.glowThreshold px len
  let glow := bF mask w h p.glowBlur
  let out := outList p glow rand px len
  let soft := sbF out w h p.softFocusRadius
  ⟨finalList p.softFocusStrength out soft len, w, h⟩

/-- The ToneGrader stage's output after the 8-bit boundary conversion: the
graded float channels `R[i], G[i], B[i]` quantized the way the pipeline's
output buffers quantize them, with opaque alpha. -/
def toneGraded8 (a : ℝ) (px : List ℤ) (len : ℕ) : List ℤ :=
  quads (fun i => toU8 (toneR a px i * 255))
    (fun i => toU8 (toneG a px i * 255))
    (fun i => toU8 (toneB a px i * 255))
    (fun _ => 255) 0 len

/-- Spec-side logistic tone curve, written from the spec sentence
`tc = 1 / (1 + exp(-toneA * (c - 0.5)))` for refinement comparison. -/
def specToneCurve (a c : ℝ) : ℝ := 1 / (1 + Real.exp (-a * (c - 0.5)))

/-- Spec-side BT.709 luma of the tone-curved channels, written from the spec
sentence `l = 0.2126*tcR + 0.7152*tcG + 0.0722*tcB`. -/
def specLuma (tr tg tb : ℝ) : ℝ := 0.2126 * tr + 0.7152 * tg + 0.0722 * tb

/-- Spec-side shadow mask, written from `shadowMask = clamp01((0.5 - l) * 2)`. -/
def specShadowMask (l : ℝ) : ℝ := clamp ((0.5 - l) * 2)

/-- Spec-side highlight mask, written from
`highlightMask = clamp01((l - 0.5) * 2)`. -/
def specHighlightMask (l : ℝ) : ℝ := clamp ((l - 0.5) * 2)

/-- Edge policy of the spec's blur primitive (spec §3 BlurSpec, §4.1). -/
inductive EdgePolicy where
  | zeroOutside
  | clampToEdge
deriving DecidableEq

/-- Modelled from the spec: Gaussian kernel weight at integer offset `k` for
standard deviation `sigma` (spec §4.1; the normalization happens in
`blur1D`).  There is no explicit convolution in the source — the source
delegates blurring to the platform canvas — so this primitive follows the
spec's words. -/
def gaussWeight (sigma : ℝ) (k : ℤ) : ℝ :=
  Real.exp (-((k : ℝ) ^ 2) / (2 * sigma ^ 2))

/-- Modelled from the spec: fetch a sample at (possibly out-of-bounds)
position `j` of a row under the given edge policy (spec §4.1: zero outside
the bounds, versus replicating the border pixel). -/
def sampleAt (pol : EdgePolicy) (row : List ℝ) (j : ℤ) : ℝ :=
  match pol with
  | EdgePolicy.zeroOutside =>
      if 0 ≤ j ∧ j < (row.length : ℤ) then row.getD j.toNat 0 else 0
  | EdgePolicy.clampToEdge => row.getD (min j ((row.length : ℤ) - 1)).toNat 0

/-- Modelled from the spec: one 1-D pass of the separable Gaussian blur at
output position `i` of a row (spec §4.1): radius ≤ 0 is a no-op, otherwise
`sigma = radius / 2`, kernel half-width `⌈3 * sigma⌉`, and each output sample
is the normalized weighted sum of the neighborhood fetched under the edge
policy. -/
def blur1D (pol : EdgePolicy) (r : ℝ) (row : List ℝ) (i : ℕ) : ℝ :=
  if r ≤ 0 then row.getD i 0 else
    (∑ k ∈ Finset.Icc (-⌈3 * (r / 2)⌉) ⌈3 * (r / 2)⌉,
        gaussWeight (r / 2) k * sampleAt pol row ((i : ℤ) + k)) /
      (∑ k ∈ Finset.Icc (-⌈3 * (r / 2)⌉) ⌈3 * (r / 2)⌉, gaussWeight (r / 2) k)

/-- Modelled from the spec: the GlowExtractor's blur call fixes the
zero-outside edge policy (spec §4.1/§4.3). -/
def glowMaskBlur1D (r : ℝ) (row : List ℝ) (i : ℕ) : ℝ :=
  blur1D EdgePolicy.zeroOutside r row i

/-- Modelled from the spec: the SoftFocusCompositor's blur call fixes the
clamp-to-edge policy (spec §4.1/§4.5). -/
def softFocusBlur1D (r : ℝ) (row : List ℝ) (i : ℕ) : ℝ :=
  blur1D EdgePolicy.clampToEdge r row i

/-- Mutable state of one `applyFilmLook` invocation: the input byte buffer
`px` plus every intermediate array the source allocates.  Each loop
iteration is a fold step that updates exactly the arrays the source writes,
so that the no-mutation claim about `px` is about explicit write targets. -/
structure Store where
  px : List ℤ
  fR : List ℝ
  fG : List ℝ
  fB : List ℝ
  lum : List ℝ
  mask : List ℤ
  glow : List ℤ
  out : List ℤ
  soft : List ℤ
  final : List ℤ

/-- One iteration of the tone map and grade loop (source: lines 89–103):
writes `R[i]`, `G[i]`, `B[i]`, `lum[i]`. -/
def toneStep (a : ℝ) (s : Store) (i : ℕ) : Store :=
  { s with
    fR := s.fR.set i (toneR a s.px i),
    fG := s.fG.set i (toneG a s.px i),
    fB := s.fB.set i (toneB a s.px i),
    lum := s.lum.set i (lumAt a s.px i) }

/-- One iteration of the glow mask loop (source: lines 107–110): writes the
four bytes of mask pixel `i`, reading `lum[i]`. -/
def maskStep (t : ℝ) (s : Store) (i : ℕ) : Store :=
  { s with
    mask := ((((s.mask.set (4 * i) (maskVal (s.lum.getD i 0) t)).set
      (4 * i + 1) (maskVal (s.lum.getD i 0) t)).set
      (4 * i + 2) (maskVal (s.lum.getD i 0) t)).set
      (4 * i + 3) 255) }

/-- Channel value computed by the combine+grain loop from the store (source:
lines 116–123). -/
def combineChan (p : FilmLookParams) (rand : ℕ → ℝ) (s : Store) (base : ℝ)
    (i j : ℕ) : ℝ :=
  clamp (base + (s.glow.getD j 0 : ℝ) / 255 * p.glowStrength +
    noiseAt rand p.grainStrength i * (0.7 + 0.3 * s.lum.getD i 0))

/-- One iteration of the combine+grain loop (source: lines 115–125): writes
the four bytes of `out` pixel `i`. -/
def combineStep (p : FilmLookParams) (rand : ℕ → ℝ) (s : Store) (i : ℕ) :
    Store :=
  { s with
    out := ((((s.out.set (4 * i)
      (toU8 (combineChan p rand s (s.fR.getD i 0) i (4 * i) * 255))).set
      (4 * i + 1)
      (toU8 (combineChan p rand s (s.fG.getD i 0) i (4 * i + 1) * 255))).set
      (4 * i + 2)
      (toU8 (combineChan p rand s (s.fB.getD i 0) i (4 * i + 2) * 255))).set
      (4 * i + 3) 255) }

/-- Channel value computed by the soft-focus blend loop from the store
(source: lines 132–145). -/
def finalChan (strength : ℝ) (s : Store) (j : ℕ) : ℝ :=
  ((s.out.getD j 0 : ℝ) / 255 * (1 - strength) +
    (s.soft.getD j 0 : ℝ) / 255 * strength) * 255

/-- One iteration of the soft-focus blend loop (source: lines 130–150):
writes the four bytes of `final` pixel `i`. -/
def finalStep (strength : ℝ) (s : Store) (i : ℕ) : Store :=
  { s with
    final := ((((s.final.set (4 * i) (toU8 (finalChan strength s (4 * i)))).set
      (4 * i + 1) (toU8 (finalChan strength s (4 * i + 1)))).set
      (4 * i + 2) (toU8 (finalChan strength s (4 * i + 2)))).set
      (4 * i + 3) 255) }

/-- The pipeline as a state transformer over `Store`, mirroring the source's
allocation of fresh zeroed arrays and the four loops plus the two blur calls
(source: lines 75–153).  The only buffer the run starts from is `px`; the
claim that the input is never mutated is the statement that the final
store's `px` is the initial one. -/
def runFilmLook (bF sbF : List ℤ → ℕ → ℕ → ℝ → List ℤ) (rand : ℕ → ℝ)
    (px : List ℤ) (w h : ℕ) (p : FilmLookParams) : Store :=
  let len := w * h
  let s0 : Store :=
    ⟨px, List.replicate len 0, List.replicate len 0, List.replicate len 0,
      List.replicate len 0, List.replicate (len * 4) 0, [],
      List.replicate (len * 4) 0, [], List.replicate (len * 4) 0⟩
  let s1 := (List.range len).foldl (toneStep p.toneA) s0
  let s2 := (List.range len).foldl (maskStep p.glowThreshold) s1
  let s3 := { s2 with glow := bF s2.mask w h p.glowBlur }
  let s4 := (List.range len).foldl (combineStep p rand) s3
  let s5 := { s4 with soft := sbF s4.out w h p.softFocusRadius }
  (List.range len).foldl (finalStep p.softFocusStrength) s5

/-- Identity stand-in for the platform blur, used to instantiate witnesses. -/
def idBlur : List ℤ → ℕ → ℕ → ℝ → List ℤ := fun d _ _ _ => d

/-- Constant-zero random sample stream, used to instantiate witnesses. -/
def randZero : ℕ → ℝ := fun _ => 0

/-- Constant-one random sample stream, used to instantiate witnesses. -/
def randOne : ℕ → ℝ := fun _ => 1

/-- A one-pixel opaque black image, used to instantiate witnesses. -/
def imgOnePx : ImageDataM := ⟨[0, 0, 0, 255], 1, 1⟩

/-- Parameters with all three strengths zero, used for the C1 witness. -/
def paramsZeroStrength : FilmLookParams := ⟨5.0, 0.7, 0, 40, 0, 0, 10⟩

/-- Parameters whose glow threshold is exactly the luminance the tone stage
produces for pixel 0 of the empty buffer, used for the C4 witness. -/
def paramsAtThreshold : FilmLookParams :=
  ⟨5.0, lumAt 5.0 [] 0, 0.4, 40, 0.02, 0.3, 10⟩

/-- Parameters with glow threshold 1, used for the C5 witness. -/
def paramsThresholdOne : FilmLookParams := ⟨5.0, 1, 0.4, 40, 0.02, 0.3, 10⟩

/-- Parameters with glow threshold 0, used for the C5 witness. -/
def paramsThresholdZero : FilmLookParams := ⟨5.0, 0, 0.4, 40, 0.02, 0.3, 10⟩

/-- Parameters with grain strength 0, used for the C6 and C10 witnesses. -/
def paramsNoGrain : FilmLookParams := ⟨5.0, 0.7, 0.4, 40, 0, 0.3, 10⟩

/-- An image whose buffer length (0) does not match its claimed 1x1
dimensions, used for the C9 counterexample and witness. -/
def imgEmpty : ImageDataM := ⟨[], 1, 1⟩

end

/-! Helper lemmas. -/

/-- clamp never goes below 0. -/
theorem clamp_nonneg (v : ℝ) : 0 ≤ clamp v :=
  le_min (le_max_right v 0) zero_le_one

/-- clamp never goes above 1. -/
theorem clamp_le_one (v : ℝ) : clamp v ≤ 1 := min_le_right _ _

/-- clamp fixes values already in [0,1]. -/
theorem clamp_of_mem {v : ℝ} (h0 : 0 ≤ v) (h1 : v ≤ 1) : clamp v = v := by
  unfold clamp
  rw [max_eq_left h0, min_eq_left h1]

/-- clamp is idempotent. -/
theorem clamp_clamp (v : ℝ) : clamp (clamp v) = clamp v :=
  clamp_of_mem (clamp_nonneg v) (clamp_le_one v)

/-- Ties-to-even rounding fixes integers. -/
theorem roundTiesEven_intCast (n : ℤ) : roundTiesEven (n : ℝ) = n := by
  unfold roundTiesEven
  rw [Int.floor_intCast, sub_self, if_neg (by norm_num), round_intCast]

/-- Storing an integer already in byte range into a `Uint8ClampedArray` cell
returns it unchanged. -/
theorem toU8_intCast {n : ℤ} (h0 : 0 ≤ n) (h1 : n ≤ 255) : toU8 (n : ℝ) = n := by
  unfold toU8
  rw [max_eq_left (by exact_mod_cast h0), min_eq_left (by exact_mod_cast h1),
    roundTiesEven_intCast]

/-- Every stored byte lies in [0,255]. -/
theorem toU8_mem (x : ℝ) : 0 ≤ toU8 x ∧ toU8 x ≤ 255 := by
  unfold toU8 roundTiesEven
  set y := min (max x 0) 255 with hy
  have hy0 : (0 : ℝ) ≤ y := le_min (le_max_right x 0) (by norm_num)
  have hy255 : y ≤ 255 := min_le_right _ _
  by_cases hfrac : y - ⌊y⌋ = 1 / 2
  · rw [if_pos hfrac]
    have hfl0 : 0 ≤ ⌊y⌋ := Int.floor_nonneg.mpr hy0
    have hflc : (⌊y⌋ : ℝ) = y - 1 / 2 := by linarith
    have hfl254 : ⌊y⌋ ≤ 254 := by
      have h : (⌊y⌋ : ℝ) < 255 := by rw [hflc]; linarith
      have h2 : ⌊y⌋ < 255 := by exact_mod_cast h
      omega
    by_cases he : Even ⌊y⌋
    · rw [if_pos he]; omega
    · rw [if_neg he]; omega
  · rw [if_neg hfrac]
    rw [round_eq]
    constructor
    · exact Int.floor_nonneg.mpr (by linarith)
    · have h : ⌊y + 1 / 2⌋ < 256 := by
        rw [Int.floor_lt]
        push_cast
        linarith
      omega

/-- Length of a quad-chunked buffer. -/
theorem quads_length (fa fb fc fd : ℕ → ℤ) :
    ∀ (n i : ℕ), (quads fa fb fc fd i n).length = 4 * n := by
  intro n
  induction n with
  | zero => intro i; rfl
  | succ n ih =>
      intro i
      show (fa i :: fb i :: fc i :: fd i :: quads fa fb fc fd (i + 1) n).length =
        4 * (n + 1)
      simp [ih (i + 1)]
      omega

/-- Reading byte `4*j` of a quad-chunked buffer gives the first channel of
pixel `j`. -/
theorem quads_getD_zero (fa fb fc fd : ℕ → ℤ) :
    ∀ (n i j : ℕ), j < n →
      (quads fa fb fc fd i n).getD (4 * j) 0 = fa (i + j) := by
  intro n
  induction n with
  | zero => intro i j hj; omega
  | succ n ih =>
      intro i j hj
      match j with
      | 0 => simp [quads]
      | j + 1 =>
          have e : 4 * (j + 1) = 4 * j + 1 + 1 + 1 + 1 := by ring
          show (fa i :: fb i :: fc i :: fd i ::
            quads fa fb fc fd (i + 1) n).getD (4 * (j + 1)) 0 = fa (i + (j + 1))
          rw [e]
          simp only [List.getD_cons_succ]
          rw [ih (i + 1) j (by omega)]
          congr 1
          omega

/-- Reading byte `4*j+1` of a quad-chunked buffer gives the second channel of
pixel `j`. -/
theorem quads_getD_one (fa fb fc fd : ℕ → ℤ) :
    ∀ (n i j : ℕ), j < n →
      (quads fa fb fc fd i n).getD (4 * j + 1) 0 = fb (i + j) := by
  intro n
  induction n with
  | zero => intro i j hj; omega
  | succ n ih =>
      intro i j hj
      match j with
      | 0 => simp [quads]
      | j + 1 =>
          have e : 4 * (j + 1) + 1 = 4 * j + 1 + 1 + 1 + 1 + 1 := by ring
          show (fa i :: fb i :: fc i :: fd i ::
            quads fa fb fc fd (i + 1) n).getD (4 * (j + 1) + 1) 0 =
            fb (i + (j + 1))
          rw [e]
          simp only [List.getD_cons_succ]
          rw [ih (i + 1) j (by omega)]
          congr 1
          omega

/-- Reading byte `4*j+2` of a quad-chunked buffer gives the third channel of
pixel `j`. -/
theorem quads_getD_two (fa fb fc fd : ℕ → ℤ) :
    ∀ (n i j : ℕ), j < n →
      (quads fa fb fc fd i n).getD (4 * j + 2) 0 = fc (i + j) := by
  intro n
  induction n with
  | zero => intro i j hj; omega
  | succ n ih =>
      intro i j hj
      match j with
      | 0 => simp [quads]
      | j + 1 =>
          have e : 4 * (j + 1) + 2 = 4 * j + 2 + 1 + 1 + 1 + 1 := by ring
          show (fa i :: fb i :: fc i :: fd i ::
            quads fa fb fc fd (i + 1) n).getD (4 * (j + 1) + 2) 0 =
            fc (i + (j + 1))
          rw [e]
          simp only [List.getD_cons_succ]
          rw [ih (i + 1) j (by omega)]
          congr 1
          omega

/-- Two quad-chunked buffers agree when their channel functions agree on the
covered pixel range. -/
theorem quads_congr (fa fb fc fd ga gb gc gd : ℕ → ℤ) :
    ∀ (n i : ℕ),
      (∀ j, j < n → fa (i + j) = ga (i + j) ∧ fb (i + j) = gb (i + j) ∧
        fc (i + j) = gc (i + j) ∧ fd (i + j) = gd (i + j)) →
      quads fa fb fc fd i n = quads ga gb gc gd i n := by
  intro n
  induction n with
  | zero => intro i _; rfl
  | succ n ih =>
      intro i h
      have h0 := h 0 (by omega)
      rw [Nat.add_zero] at h0
      show fa i :: fb i :: fc i :: fd i :: quads fa fb fc fd (i + 1) n =
        ga i :: gb i :: gc i :: gd i :: quads ga gb gc gd (i + 1) n
      have htail : quads fa fb fc fd (i + 1) n = quads ga gb gc gd (i + 1) n := by
        apply ih
        intro j hj
        have e : i + 1 + j = i + (j + 1) := by omega
        rw [e]
        exact h (j + 1) (by omega)
      rw [h0.1, h0.2.1, h0.2.2.1, h0.2.2.2, htail]

/-- The logistic tone curve is strictly positive. -/
theorem toneCurve_pos (a c : ℝ) : 0 < toneCurve a c := by
  unfold toneCurve
  have h := Real.exp_pos (-a * (c - 0.5))
  exact div_pos one_pos (by linarith)

/-- The logistic tone curve is strictly below 1. -/
theorem toneCurve_lt_one (a c : ℝ) : toneCurve a c < 1 := by
  unfold toneCurve
  have h := Real.exp_pos (-a * (c - 0.5))
  rw [div_lt_one (by linarith)]
  linarith

/-- The tone-curved luminance is strictly positive. -/
theorem lumAt_pos (a : ℝ) (px : List ℤ) (i : ℕ) : 0 < lumAt a px i := by
  unfold lumAt tcR tcG tcB
  have h1 := toneCurve_pos a (chan px (4 * i))
  have h2 := toneCurve_pos a (chan px (4 * i + 1))
  have h3 := toneCurve_pos a (chan px (4 * i + 2))
  nlinarith

/-- The tone-curved luminance is strictly below 1 (the BT.709 weights sum to
exactly 1). -/
theorem lumAt_lt_one (a : ℝ) (px : List ℤ) (i : ℕ) : lumAt a px i < 1 := by
  unfold lumAt tcR tcG tcB
  have h1 := toneCurve_lt_one a (chan px (4 * i))
  have h2 := toneCurve_lt_one a (chan px (4 * i + 1))
  have h3 := toneCurve_lt_one a (chan px (4 * i + 2))
  have h4 := toneCurve_pos a (chan px (4 * i))
  have h5 := toneCurve_pos a (chan px (4 * i + 1))
  have h6 := toneCurve_pos a (chan px (4 * i + 2))
  nlinarith

/-- The graded red channel is already clamped, so clamping it again is the
identity. -/
theorem clamp_toneR (a : ℝ) (px : List ℤ) (i : ℕ) :
    clamp (toneR a px i) = toneR a px i := by
  unfold toneR
  exact clamp_clamp _

/-- The graded green channel is already clamped, so clamping it again is the
identity. -/
theorem clamp_toneG (a : ℝ) (px : List ℤ) (i : ℕ) :
    clamp (toneG a px i) = toneG a px i := by
  unfold toneG
  exact clamp_clamp _

/-- The graded blue channel is already clamped, so clamping it again is the
identity. -/
theorem clamp_toneB (a : ℝ) (px : List ℤ) (i : ℕ) :
    clamp (toneB a px i) = toneB a px i := by
  unfold toneB
  exact clamp_clamp _

/-- With soft-focus strength 0 the blend loop reproduces its sharp input
buffer byte for byte (for any buffer built of stored bytes, in particular
the quantized ToneGrader output). -/
theorem finalList_zero_strength (a : ℝ) (px soft : List ℤ) (len : ℕ) :
    finalList 0 (toneGraded8 a px len) soft len = toneGraded8 a px len := by
  unfold finalList toneGraded8
  apply quads_congr
  intro j hj
  refine ⟨?_, ?_, ?_, rfl⟩
  · simp only [Nat.zero_add]
    unfold blendChan chan
    rw [quads_getD_zero _ _ _ _ len 0 j hj]
    simp only [Nat.zero_add, sub_zero, mul_one, mul_zero, add_zero]
    rw [div_mul_cancel₀ _ (by norm_num : (255 : ℝ) ≠ 0)]
    exact toU8_intCast (toU8_mem _).1 (toU8_mem _).2
  · simp only [Nat.zero_add]
    unfold blendChan chan
    rw [quads_getD_one _ _ _ _ len 0 j hj]
    simp only [Nat.zero_add, sub_zero, mul_one, mul_zero, add_zero]
    rw [div_mul_cancel₀ _ (by norm_num : (255 : ℝ) ≠ 0)]
    exact toU8_intCast (toU8_mem _).1 (toU8_mem _).2
  · simp only [Nat.zero_add]
    unfold blendChan chan
    rw [quads_getD_two _ _ _ _ len 0 j hj]
    simp only [Nat.zero_add, sub_zero, mul_one, mul_zero, add_zero]
    rw [div_mul_cancel₀ _ (by norm_num : (255 : ℝ) ≠ 0)]
    exact toU8_intCast (toU8_mem _).1 (toU8_mem _).2

/-- Gaussian kernel weights are strictly positive. -/
theorem gaussWeight_pos (sigma : ℝ) (k : ℤ) : 0 < gaussWeight sigma k :=
  Real.exp_pos _

/-- The central Gaussian kernel weight is 1. -/
theorem gaussWeight_zero (sigma : ℝ) : gaussWeight sigma 0 = 1 := by
  unfold gaussWeight
  norm_num

/-- A fold whose step never touches the `px` field leaves `px` unchanged. -/
theorem foldl_px (body : Store → ℕ → Store)
    (hb : ∀ s i, (body s i).px = s.px) :
    ∀ (l : List ℕ) (s : Store), (l.foldl body s).px = s.px := by
  intro l
  induction l with
  | nil => intro s; rfl
  | cons a l ih =>
      intro s
      show ((l.foldl body (body s a)).px = s.px)
      rw [ih (body s a), hb s a]

/-! Claim theorems. -/

/-- Claim C3: for every pixel, the tone/grade stage computes each channel as
the logistic curve of the [0,1]-normalized channel, computes BT.709 luminance
from the tone-curved channels, derives the shadow and highlight masks by the
spec's clamp formulas, adds the fixed per-channel offsets (R: -0.05 shadow /
+0.08 highlight; G: 0 / +0.04; B: +0.05 / -0.02), and clamps each result to
[0,1]. -/
theorem tone_grader_formulas (a : ℝ) (px : List ℤ) (i : ℕ) :
    tcR a px i = specToneCurve a (chan px (4 * i)) ∧
    tcG a px i = specToneCurve a (chan px (4 * i + 1)) ∧
    tcB a px i = specToneCurve a (chan px (4 * i + 2)) ∧
    lumAt a px i = specLuma (tcR a px i) (tcG a px i) (tcB a px i) ∧
    shadowMask (lumAt a px i) = specShadowMask (lumAt a px i) ∧
    highlightMask (lumAt a px i) = specHighlightMask (lumAt a px i) ∧
    toneR a px i = clamp (tcR a px i + specShadowMask (lumAt a px i) * (-0.05) +
      specHighlightMask (lumAt a px i) * 0.08) ∧
    toneG a px i = clamp (tcG a px i + specShadowMask (lumAt a px i) * 0.0 +
      specHighlightMask (lumAt a px i) * 0.04) ∧
    toneB a px i = clamp (tcB a px i + specShadowMask (lumAt a px i) * 0.05 +
      specHighlightMask (lumAt a px i) * (-0.02)) :=
  ⟨rfl, rfl, rfl, rfl, rfl, rfl, rfl, rfl, rfl⟩

/-- Claim C4: a pixel whose luminance is exactly equal to `glowThreshold`
gets glow mask value 0, not 255 — the comparison is strict. -/
theorem glow_mask_strict_at_threshold (p : FilmLookParams) (px : List ℤ)
    (i : ℕ) (h : lumAt p.toneA px i = p.glowThreshold) :
    maskVal (lumAt p.toneA px i) p.glowThreshold = 0 := by
  unfold maskVal
  rw [h, if_neg (lt_irrefl p.glowThreshold)]

/-- Claim C4 witness: parameters whose threshold is exactly the luminance of
a concrete pixel yield mask value 0 there. -/
theorem glow_mask_strict_at_threshold_spot :
    lumAt paramsAtThreshold.toneA [] 0 = paramsAtThreshold.glowThreshold ∧
    maskVal (lumAt paramsAtThreshold.toneA [] 0)
      paramsAtThreshold.glowThreshold = 0 :=
  ⟨rfl, glow_mask_strict_at_threshold paramsAtThreshold [] 0 rfl⟩

/-- Claim C5: every luminance the tone stage produces lies strictly between
0 and 1 (a convex combination of sigmoid outputs), so with
`glowThreshold ≥ 1` every glow-mask pixel is 0 and with `glowThreshold ≤ 0`
every glow-mask pixel is 255. -/
theorem glow_threshold_extremes (p : FilmLookParams) (px : List ℤ) (i : ℕ) :
    0 < lumAt p.toneA px i ∧ lumAt p.toneA px i < 1 ∧
    (1 ≤ p.glowThreshold →
      maskVal (lumAt p.toneA px i) p.glowThreshold = 0) ∧
    (p.glowThreshold ≤ 0 →
      maskVal (lumAt p.toneA px i) p.glowThreshold = 255) := by
  refine ⟨lumAt_pos _ _ _, lumAt_lt_one _ _ _, ?_, ?_⟩
  · intro ht
    have hlt : lumAt p.toneA px i < p.glowThreshold :=
      lt_of_lt_of_le (lumAt_lt_one _ _ _) ht
    unfold maskVal
    rw [if_neg (not_lt.mpr (le_of_lt hlt))]
  · intro ht
    have hgt : p.glowThreshold < lumAt p.toneA px i :=
      lt_of_le_of_lt ht (lumAt_pos _ _ _)
    unfold maskVal
    rw [if_pos hgt]

/-- Claim C5 witness: with threshold 1 the concrete mask value is 0, with
threshold 0 it is 255. -/
theorem glow_threshold_extremes_spot :
    (1 ≤ paramsThresholdOne.glowThreshold ∧
      maskVal (lumAt paramsThresholdOne.toneA [] 0)
        paramsThresholdOne.glowThreshold = 0) ∧
    (paramsThresholdZero.glowThreshold ≤ 0 ∧
      maskVal (lumAt paramsThresholdZero.toneA [] 0)
        paramsThresholdZero.glowThreshold = 255) :=
  ⟨⟨le_refl 1,
      (glow_threshold_extremes paramsThresholdOne [] 0).2.2.1 (le_refl 1)⟩,
    ⟨le_refl 0,
      (glow_threshold_extremes paramsThresholdZero [] 0).2.2.2 (le_refl 0)⟩⟩

/-- Claim C6: the grain stage draws one noise sample per pixel lying in
[-strength, strength] and adds the same value
`noise * (0.7 + 0.3 * luminance)` to all three channels before clamping, so
the pre-clamp deltas of R, G and B are equal. -/
theorem grain_monochrome_shared_noise (p : FilmLookParams) (glow : List ℤ)
    (rand : ℕ → ℝ) (px : List ℤ) (i : ℕ)
    (h0 : 0 ≤ rand i) (h1 : rand i ≤ 1) (hs : 0 ≤ p.grainStrength) :
    outRval p glow rand px i = clamp (preR p glow px i +
      noiseAt rand p.grainStrength i * grainWeight p.toneA px i) ∧
    outGval p glow rand px i = clamp (preG p glow px i +
      noiseAt rand p.grainStrength i * grainWeight p.toneA px i) ∧
    outBval p glow rand px i = clamp (preB p glow px i +
      noiseAt rand p.grainStrength i * grainWeight p.toneA px i) ∧
    (preR p glow px i +
        noiseAt rand p.grainStrength i * grainWeight p.toneA px i) -
      preR p glow px i =
    (preG p glow px i +
        noiseAt rand p.grainStrength i * grainWeight p.toneA px i) -
      preG p glow px i ∧
    (preG p glow px i +
        noiseAt rand p.grainStrength i * grainWeight p.toneA px i) -
      preG p glow px i =
    (preB p glow px i +
        noiseAt rand p.grainStrength i * grainWeight p.toneA px i) -
      preB p glow px i ∧
    (-p.grainStrength ≤ noiseAt rand p.grainStrength i ∧
      noiseAt rand p.grainStrength i ≤ p.grainStrength) := by
  refine ⟨rfl, rfl, rfl, by ring, by ring, ?_, ?_⟩
  · unfold noiseAt
    nlinarith
  · unfold noiseAt
    nlinarith

/-- Claim C6 witness: concrete random stream and parameters satisfying the
hypotheses, with the noise bound instantiated. -/
theorem grain_monochrome_shared_noise_spot :
    (0 ≤ randZero 0 ∧ randZero 0 ≤ 1 ∧ 0 ≤ paramsNoGrain.grainStrength) ∧
    (-paramsNoGrain.grainStrength ≤
        noiseAt randZero paramsNoGrain.grainStrength 0 ∧
      noiseAt randZero paramsNoGrain.grainStrength 0 ≤
        paramsNoGrain.grainStrength) :=
  ⟨⟨le_refl 0, zero_le_one, le_refl 0⟩,
    (grain_monochrome_shared_noise paramsNoGrain [] randZero [] 0
      (le_refl 0) zero_le_one (le_refl 0)).2.2.2.2.2⟩

/-- Claim C7: for every input whose stated dimensions are the ones passed to
the stage, the pipeline's output has the same width and height and its data
length is exactly `width * height * 4`. -/
theorem pipeline_preserves_dimensions (bF sbF : List ℤ → ℕ → ℕ → ℝ → List ℤ)
    (rand : ℕ → ℝ) (img : ImageDataM) (w h : ℕ) (p : FilmLookParams)
    (hw : img.width = w) (hh : img.height = h) :
    (applyFilmLook bF sbF rand img w h p).width = img.width ∧
    (applyFilmLook bF sbF rand img w h p).height = img.height ∧
    (applyFilmLook bF sbF rand img w h p).data.length =
      img.width * img.height * 4 := by
  subst hw hh
  refine ⟨rfl, rfl, ?_⟩
  simp only [applyFilmLook]
  unfold finalList
  rw [quads_length]
  ring

/-- Claim C7 witness: a concrete 1x1 image keeps its dimensions and gets a
4-byte output buffer. -/
theorem pipeline_preserves_dimensions_spot :
    imgOnePx.width = 1 ∧ imgOnePx.height = 1 ∧
    (applyFilmLook idBlur idBlur randZero imgOnePx 1 1 defaultParams).width =
      imgOnePx.width ∧
    (applyFilmLook idBlur idBlur randZero imgOnePx 1 1
        defaultParams).data.length = imgOnePx.width * imgOnePx.height * 4 :=
  ⟨rfl, rfl,
    (pipeline_preserves_dimensions idBlur idBlur randZero imgOnePx 1 1
      defaultParams rfl rfl).1,
    (pipeline_preserves_dimensions idBlur idBlur randZero imgOnePx 1 1
      defaultParams rfl rfl).2.2⟩

/-- Claim C8: running the pipeline leaves the input buffer's pixel data
unchanged — every write of every loop targets a freshly allocated buffer, so
the `px` component of the final store equals the initial input. -/
theorem pipeline_does_not_mutate_input
    (bF sbF : List ℤ → ℕ → ℕ → ℝ → List ℤ) (rand : ℕ → ℝ) (px : List ℤ)
    (w h : ℕ) (p : FilmLookParams) :
    (runFilmLook bF sbF rand px w h p).px = px := by
  have h1 : ∀ (l : List ℕ) (s : Store),
      (l.foldl (finalStep p.softFocusStrength) s).px = s.px :=
    foldl_px _ (fun s i => rfl)
  have h2 : ∀ (l : List ℕ) (s : Store),
      (l.foldl (combineStep p rand) s).px = s.px :=
    foldl_px _ (fun s i => rfl)
  have h3 : ∀ (l : List ℕ) (s : Store),
      (l.foldl (maskStep p.glowThreshold) s).px = s.px :=
    foldl_px _ (fun s i => rfl)
  have h4 : ∀ (l : List ℕ) (s : Store),
      (l.foldl (toneStep p.toneA) s).px = s.px :=
    foldl_px _ (fun s i => rfl)
  simp only [runFilmLook, h1, h2, h3, h4]

/-- Claim C10: with `grainStrength = 0` the pipeline is deterministic — two
runs with different random streams produce identical outputs, because the
only random contribution is the noise sample multiplied by
`grainStrength`. -/
theorem pipeline_deterministic_no_grain
    (bF sbF : List ℤ → ℕ → ℕ → ℝ → List ℤ) (r1 r2 : ℕ → ℝ)
    (img : ImageDataM) (w h : ℕ) (p : FilmLookParams)
    (hg : p.grainStrength = 0) :
    applyFilmLook bF sbF r1 img w h p = applyFilmLook bF sbF r2 img w h p := by
  have hout : ∀ (glow px : List ℤ) (len : ℕ),
      outList p glow r1 px len = outList p glow r2 px len := by
    intro glow px len
    unfold outList
    apply quads_congr
    intro j hj
    refine ⟨?_, ?_, ?_, rfl⟩ <;>
      simp only [outRval, outGval, outBval, noiseAt, hg, mul_zero, zero_mul,
        add_zero]
  simp only [applyFilmLook]
  rw [hout]

/-- Claim C10 witness: two concrete random streams give the same output when
grain strength is 0. -/
theorem pipeline_deterministic_no_grain_spot :
    paramsNoGrain.grainStrength = 0 ∧
    applyFilmLook idBlur idBlur randZero imgOnePx 1 1 paramsNoGrain =
      applyFilmLook idBlur idBlur randOne imgOnePx 1 1 paramsNoGrain :=
  ⟨rfl, pipeline_deterministic_no_grain idBlur idBlur randZero randOne
    imgOnePx 1 1 paramsNoGrain rfl⟩

/-- Claim C1: with `glowStrength = 0`, `grainStrength = 0` and
`softFocusStrength = 0`, the pipeline's output equals the ToneGrader stage's
output exactly, pixel for pixel, after the 8-bit boundary conversion — for
every input buffer, every random stream and every platform blur. -/
theorem pipeline_zero_strengths_equals_tone_grader
    (bF sbF : List ℤ → ℕ → ℕ → ℝ → List ℤ) (rand : ℕ → ℝ)
    (img : ImageDataM) (w h : ℕ) (p : FilmLookParams)
    (hglow : p.glowStrength = 0) (hgrain : p.grainStrength = 0)
    (hsoft : p.softFocusStrength = 0) :
    applyFilmLook bF sbF rand img w h p =
      ⟨toneGraded8 p.toneA img.data (w * h), w, h⟩ := by
  have hout : ∀ glow : List ℤ,
      outList p glow rand img.data (w * h) =
        toneGraded8 p.toneA img.data (w * h) := by
    intro glow
    unfold outList toneGraded8
    apply quads_congr
    intro j hj
    refine ⟨?_, ?_, ?_, rfl⟩ <;>
      simp only [outRval, outGval, outBval, preR, preG, preB, noiseAt, hglow,
        hgrain, mul_zero, zero_mul, add_zero, clamp_toneR, clamp_toneG,
        clamp_toneB]
  simp only [applyFilmLook]
  rw [hout, hsoft, finalList_zero_strength]

/-- Claim C1 witness: concrete zero-strength parameters on a concrete 1x1
image reproduce the quantized ToneGrader output. -/
theorem pipeline_zero_strengths_equals_tone_grader_spot :
    paramsZeroStrength.glowStrength = 0 ∧
    paramsZeroStrength.grainStrength = 0 ∧
    paramsZeroStrength.softFocusStrength = 0 ∧
    applyFilmLook idBlur idBlur randZero imgOnePx 1 1 paramsZeroStrength =
      ⟨toneGraded8 paramsZeroStrength.toneA imgOnePx.data (1 * 1), 1, 1⟩ :=
  ⟨rfl, rfl, rfl, pipeline_zero_strengths_equals_tone_grader idBlur idBlur
    randZero imgOnePx 1 1 paramsZeroStrength rfl rfl rfl⟩

/-- Claim C2 (spec-modelled blur primitive): the blur takes the edge policy
as an explicit parameter, the glow-mask caller fixes zero-outside while the
soft-focus caller fixes clamp-to-edge, the two policies are distinct, and
they are semantically different — on a one-pixel all-white row a positive
radius keeps the value 1 under clamp-to-edge but strictly darkens it under
zero-outside. -/
theorem blur_edge_policy_explicit (r : ℝ) (hr : 0 < r) :
    EdgePolicy.zeroOutside ≠ EdgePolicy.clampToEdge ∧
    glowMaskBlur1D r = blur1D EdgePolicy.zeroOutside r ∧
    softFocusBlur1D r = blur1D EdgePolicy.clampToEdge r ∧
    blur1D EdgePolicy.clampToEdge r [1] 0 = 1 ∧
    blur1D EdgePolicy.zeroOutside r [1] 0 < 1 := by
  have hnr : ¬ r ≤ 0 := not_le.mpr hr
  have hH1 : 1 ≤ ⌈3 * (r / 2)⌉ := by
    have h0 : 0 < ⌈3 * (r / 2)⌉ := Int.ceil_pos.mpr (by linarith)
    omega
  have h0mem : (0 : ℤ) ∈ Finset.Icc (-⌈3 * (r / 2)⌉) ⌈3 * (r / 2)⌉ :=
    Finset.mem_Icc.mpr ⟨by omega, by omega⟩
  have h1mem : (1 : ℤ) ∈ Finset.Icc (-⌈3 * (r / 2)⌉) ⌈3 * (r / 2)⌉ :=
    Finset.mem_Icc.mpr ⟨by omega, by omega⟩
  have hDpos : 0 < ∑ k ∈ Finset.Icc (-⌈3 * (r / 2)⌉) ⌈3 * (r / 2)⌉,
      gaussWeight (r / 2) k :=
    Finset.sum_pos (fun k _ => gaussWeight_pos _ k) ⟨0, h0mem⟩
  refine ⟨by decide, rfl, rfl, ?_, ?_⟩
  · unfold blur1D
    rw [if_neg hnr]
    have hsamp : ∀ k : ℤ,
        sampleAt EdgePolicy.clampToEdge [1] (((0 : ℕ) : ℤ) + k) = 1 := by
      intro k
      unfold sampleAt
      have hlen : (([1] : List ℝ).length : ℤ) = 1 := by simp
      rw [hlen]
      have htn : (min (((0 : ℕ) : ℤ) + k) (1 - 1)).toNat = 0 := by
        have hmin := min_le_right (((0 : ℕ) : ℤ) + k) ((1 : ℤ) - 1)
        omega
      rw [htn]
      rfl
    rw [Finset.sum_congr rfl (fun k _ => by rw [hsamp k, mul_one])]
    exact div_self (ne_of_gt hDpos)
  · unfold blur1D
    rw [if_neg hnr]
    have hsamp : ∀ k : ℤ,
        gaussWeight (r / 2) k *
          sampleAt EdgePolicy.zeroOutside [1] (((0 : ℕ) : ℤ) + k) =
        if k = 0 then 1 else 0 := by
      intro k
      by_cases hk : k = 0
      · subst hk
        unfold sampleAt
        rw [if_pos (by simp)]
        simp [gaussWeight_zero]
      · unfold sampleAt
        rw [if_neg (by simp; omega)]
        rw [mul_zero, if_neg hk]
    rw [Finset.sum_congr rfl (fun k _ => hsamp k)]
    rw [Finset.sum_ite_eq' (Finset.Icc (-⌈3 * (r / 2)⌉) ⌈3 * (r / 2)⌉) 0
      (fun _ => (1 : ℝ))]
    rw [if_pos h0mem]
    rw [div_lt_one hDpos]
    have hsingle : ∑ k ∈ ({0} : Finset ℤ), gaussWeight (r / 2) k = 1 := by
      rw [Finset.sum_singleton, gaussWeight_zero]
    rw [← hsingle]
    apply Finset.sum_lt_sum_of_subset
    · intro x hx
      rw [Finset.mem_singleton] at hx
      subst hx
      exact h0mem
    · exact h1mem
    · simp
    · exact gaussWeight_pos _ 1
    · intro j _ _
      exact le_of_lt (gaussWeight_pos _ j)

/-- Claim C2 witness: radius 2 separates the two edge policies on the
one-pixel all-white row. -/
theorem blur_edge_policy_explicit_spot :
    (0 : ℝ) < 2 ∧ blur1D EdgePolicy.clampToEdge 2 [1] 0 = 1 ∧
    blur1D EdgePolicy.zeroOutside 2 [1] 0 < 1 :=
  ⟨two_pos, (blur_edge_policy_explicit 2 two_pos).2.2.2.1,
    (blur_edge_policy_explicit 2 two_pos).2.2.2.2⟩

/-- Claim C9 counterexample: on an input whose buffer length does not match
`width * height * 4` the pipeline does not fail and does not return an empty
result — it runs to completion and produces a normal full-size buffer, so no
`InvalidDimensions` error is surfaced. -/
theorem pipeline_invalid_dims_no_failure :
    imgEmpty.data.length ≠ 1 * 1 * 4 ∧
    (applyFilmLook idBlur idBlur randZero imgEmpty 1 1 defaultParams).width =
      1 ∧
    (applyFilmLook idBlur idBlur randZero imgEmpty 1 1 defaultParams).height =
      1 ∧
    (applyFilmLook idBlur idBlur randZero imgEmpty 1 1 defaultParams).data ≠
      [] := by
  refine ⟨by decide, rfl, rfl, ?_⟩
  apply List.ne_nil_of_length_pos
  simp only [applyFilmLook]
  unfold finalList
  rw [quads_length]
  norm_num

/-- Claim C9 amended: the pipeline performs no dimension validation — even
when the input buffer length does not match `w * h * 4` it returns a result
buffer of length exactly `w * h * 4` (out-of-range reads see default
samples) instead of failing. -/
theorem pipeline_no_validation (bF sbF : List ℤ → ℕ → ℕ → ℝ → List ℤ)
    (rand : ℕ → ℝ) (img : ImageDataM) (w h : ℕ) (p : FilmLookParams)
    (hbad : img.data.length ≠ w * h * 4) :
    (applyFilmLook bF sbF rand img w h p).data.length = w * h * 4 := by
  simp only [applyFilmLook]
  unfold finalList
  rw [quads_length]
  ring

/-- Claim C9 amended witness: the concrete mismatched 1x1 input still yields
a 4-byte output buffer. -/
theorem pipeline_no_validation_spot :
    imgEmpty.data.length ≠ 1 * 1 * 4 ∧
    (applyFilmLook idBlur idBlur randZero imgEmpty 1 1
      defaultParams).data.length = 1 * 1 * 4 :=
  ⟨by decide, pipeline_no_validation idBlur idBlur randZero imgEmpty 1 1
    defaultParams (by decide)⟩

end FilmLook
